import Mathlib

/-!
Verification of the GPIS player-scoring and similarity-retrieval app
(`src/app.py`).

The app operates on two immutable pandas tables:
  * a player table `df` with one row per player (index: player id), holding
    the composite score column `GPIS`, the `minutes_played` column and the
    standardized feature columns, and
  * a square similarity matrix `similarity_df` indexed and columned by the
    same player ids.

We embed the pandas operations the app uses shallowly:
  * a Series with string index is an association list `List (String × α)`
    (the index is unique by the data-model invariant);
  * `series[label]` / `.loc[label]` is association-list lookup returning
    `Option` (`none` models a raised `KeyError`);
  * `series.drop(label)` removes the rows with that label;
  * `series.sort_values(ascending=False)` is a sort by value descending
    (ties are left in an unspecified but deterministic order, matching the
    reference behavior which fixes no tie order);
  * `series.head(n)` takes the first `n` rows for `n ≥ 0` and all but the
    last `|n|` rows for `n < 0` (pandas semantics for a negative argument);
  * `Series.rank(pct=True)` is the average-rank of a value divided by the
    row count;
  * a raised `IndexError` (`.index[0]` / `v[0]` on an empty sequence) is
    modelled by `Option` as well.
-/

/-- A pandas Series with string index: list of (index label, value). -/
abbrev Series (α : Type) : Type := List (String × α)

/-- Lookup `series[k]` / `.loc[k]`: first value at label `k`; `none` is a raised
`KeyError`. -/
def lookupKey {α : Type} (k : String) : Series α → Option α
  | [] => none
  | e :: es => if e.1 = k then some e.2 else lookupKey k es

/-- Drop `series.drop(k)`: remove the rows labelled `k`. -/
def dropLabel {α : Type} (k : String) (s : Series α) : Series α :=
  s.filter (fun e => decide (e.1 ≠ k))

/-- Insert one row into a list already sorted by value descending
(helper of `sort_values_desc`). -/
def insertDesc (x : String × ℚ) : Series ℚ → Series ℚ
  | [] => [x]
  | y :: ys => if y.2 ≤ x.2 then x :: y :: ys else y :: insertDesc x ys

/-- Sort `series.sort_values(ascending=False)`: sort rows by value descending. -/
def sort_values_desc : Series ℚ → Series ℚ
  | [] => []
  | x :: xs => insertDesc x (sort_values_desc xs)

/-- Head `series.head(n)` with pandas semantics: the first `n` rows when
`0 ≤ n`, and all but the last `|n|` rows when `n < 0`. -/
def seriesHead {α : Type} (n : ℤ) (s : List α) : List α :=
  if 0 ≤ n then s.take n.toNat else s.take (s.length - (-n).toNat)

/-- One row of the player table `df` restricted to what the retrieval code
reads: `(player id, GPIS, minutes_played)`. -/
abbrev PlayerTable : Type := List (String × ℚ × ℚ)

/-- Join column read `df[["GPIS", "minutes_played"]].loc[k]` as an optional pair. -/
def lookupGpisMinutes (k : String) (df : PlayerTable) : Option (ℚ × ℚ) :=
  lookupKey k (df.map (fun r => (r.1, r.2)))

/-- The similarity matrix `similarity_df` as a map from column label to the
column Series (`similarity_df[player]` is a lookup). -/
abbrev SimMatrix : Type := List (String × Series ℚ)

/-- Function `best_match_for(player)` from `src/app.py`:
`similarity_df[player].drop(player).sort_values(ascending=False).index[0]`.
`none` models the `KeyError` (unknown column) or the `IndexError`
(`.index[0]` on an empty Series). -/
def best_match_for (similarity_df : SimMatrix) (player : String) :
    Option String :=
  (lookupKey player similarity_df).bind fun col =>
    ((sort_values_desc (dropLabel player col)).head?).map Prod.fst

/-- One output row of `find_similar_players`:
`(neighbor id, similarity, join of df[["GPIS", "minutes_played"]])`.
The join is a pandas left join on the index, so a neighbor missing from
`df` keeps its row with NaN columns — hence the `Option`. -/
abbrev SimRow : Type := String × ℚ × Option (ℚ × ℚ)

/-- Function `find_similar_players(player, top_n)` from `src/app.py`:
`similarity_df[player].drop(player).sort_values(ascending=False).head(top_n)`
joined with `df[["GPIS", "minutes_played"]]`. `none` models the `KeyError`
raised when `player` is not a column of the matrix. -/
def find_similar_players (similarity_df : SimMatrix) (df : PlayerTable)
    (player : String) (top_n : ℤ) : Option (List SimRow) :=
  (lookupKey player similarity_df).map fun col =>
    (seriesHead top_n (sort_values_desc (dropLabel player col))).map
      fun e => (e.1, e.2, lookupGpisMinutes e.1 df)

/-- The `GPIS` column of the player table: `df["GPIS"]`. -/
def gpisColumn (df : PlayerTable) : Series ℚ :=
  df.map (fun r => (r.1, r.2.1))

/-- The multiset of all GPIS scores (values of `df["GPIS"]`). -/
def gpisScores (df : PlayerTable) : List ℚ :=
  df.map (fun r => r.2.1)

/-- Pandas average rank of value `v` inside `scores` (which contains `v`
itself): with `k` values strictly below `v` and `m` values equal to `v`,
the tied block occupies ranks `k+1 .. k+m` and the average rank is
`k + (m+1)/2`. -/
def rank_avg (scores : List ℚ) (v : ℚ) : ℚ :=
  (scores.countP (fun o => decide (o < v)) : ℚ) +
    ((scores.countP (fun o => decide (o = v)) : ℚ) + 1) / 2

/-- Expression `percentile = df["GPIS"].rank(pct=True).loc[player] * 100` from
`src/app.py` line 271 (`rank(pct=True)` divides the average rank by the
row count). `none` models the `KeyError` of `.loc` on an unknown player. -/
def percentile (df : PlayerTable) (player : String) : Option ℚ :=
  (lookupKey player (gpisColumn df)).map fun v =>
    rank_avg (gpisScores df) v / (df.length : ℚ) * 100

/-- Spec-side definition (for the refinement claim): §4.2's average-rank
convention stated the way
the spec words it — "tied scores receive the mean of the ranks they would
occupy". With `k` scores strictly below `v` and `m` scores equal to `v`,
the tied scores would occupy ranks `k+1, k+2, …, k+m`, and the rank of `v`
is the arithmetic mean of that block. -/
def spec_avg_rank (scores : List ℚ) (v : ℚ) : ℚ :=
  (((List.range (scores.countP (fun o => decide (o = v)))).map
      (fun i : ℕ =>
        ((scores.countP (fun o => decide (o < v)) : ℚ) + 1 + (i : ℚ)))).sum)
    / (scores.countP (fun o => decide (o = v)) : ℚ)

/-- Function `gpis_quality(percentile)` from `src/app.py`: quality tier label and
display color for a percentile value. -/
def gpis_quality (percentile : ℚ) : String × String :=
  if percentile ≥ 85 then ("Elite impact", "#2ecc71")
  else if percentile ≥ 60 then ("Above average", "#3498db")
  else if percentile ≥ 40 then ("League average", "#f1c40f")
  else ("Below average", "#e74c3c")

/-- The player table's feature columns: player id → ordered mapping of
feature name → standardized value (`df.loc[p, features]` reads these). -/
abbrev FeatureTable : Type := List (String × Series ℚ)

/-- Row selection `df.loc[p, features].tolist()`: the requested features of player `p`'s
row, in the requested order; `none` models the `KeyError` on a missing
player or feature. -/
def selectFeatures (row : Series ℚ) : List String → Option (List ℚ)
  | [] => some []
  | f :: fs =>
    match lookupKey f row, selectFeatures row fs with
    | some v, some vs => some (v :: vs)
    | _, _ => none

/-- Closing step `xs += [xs[0]]`: append the first element at the end ("close the
loop"); `none` models the `IndexError` of `xs[0]` on an empty list. -/
def closeLoop {α : Type} : List α → Option (List α)
  | [] => none
  | x :: xs => some ((x :: xs) ++ [x])

/-- The vector construction of `radar_chart(p1, p2, features, labels)` from
`src/app.py`: the two closed value sequences and the closed label sequence
that become the `r` and `theta` data of the two polar traces (the figure
styling is presentation-only and not modelled). -/
def radar_chart (df : FeatureTable) (p1 p2 : String)
    (features labels : List String) :
    Option (List ℚ × List ℚ × List String) := do
  let row1 ← lookupKey p1 df
  let v1 ← selectFeatures row1 features
  let row2 ← lookupKey p2 df
  let v2 ← selectFeatures row2 features
  let c1 ← closeLoop v1
  let c2 ← closeLoop v2
  let cl ← closeLoop labels
  some (c1, c2, cl)

/-! ### Basic facts about the embedded pandas operations -/

lemma length_insertDesc (x : String × ℚ) (s : Series ℚ) :
    (insertDesc x s).length = s.length + 1 := by
  induction s with
  | nil => rfl
  | cons y ys ih =>
    simp only [insertDesc]
    split
    · simp
    · simp [ih]

lemma length_sort_values_desc (s : Series ℚ) :
    (sort_values_desc s).length = s.length := by
  induction s with
  | nil => rfl
  | cons x xs ih => simp [sort_values_desc, length_insertDesc, ih]

lemma mem_insertDesc {a x : String × ℚ} {s : Series ℚ} :
    a ∈ insertDesc x s ↔ a = x ∨ a ∈ s := by
  induction s with
  | nil => simp [insertDesc]
  | cons y ys ih =>
    simp only [insertDesc]
    split
    · simp [List.mem_cons]
    · simp [List.mem_cons, ih]
      tauto

lemma mem_sort_values_desc {a : String × ℚ} {s : Series ℚ} :
    a ∈ sort_values_desc s ↔ a ∈ s := by
  induction s with
  | nil => simp [sort_values_desc]
  | cons x xs ih => simp [sort_values_desc, mem_insertDesc, ih, List.mem_cons]

lemma pairwise_insertDesc {x : String × ℚ} {s : Series ℚ}
    (h : s.Pairwise (fun a b => b.2 ≤ a.2)) :
    (insertDesc x s).Pairwise (fun a b => b.2 ≤ a.2) := by
  induction s with
  | nil => simp [insertDesc]
  | cons y ys ih =>
    rw [List.pairwise_cons] at h
    simp only [insertDesc]
    split
    · rename_i hle
      rw [List.pairwise_cons]
      refine ⟨?_, List.pairwise_cons.mpr h⟩
      intro b hb
      rcases List.mem_cons.mp hb with rfl | hb
      · exact hle
      · exact (h.1 b hb).trans hle
    · rename_i hlt
      rw [List.pairwise_cons]
      refine ⟨?_, ih h.2⟩
      intro b hb
      rcases mem_insertDesc.mp hb with rfl | hb
      · exact le_of_not_le hlt
      · exact h.1 b hb

lemma pairwise_sort_values_desc (s : Series ℚ) :
    (sort_values_desc s).Pairwise (fun a b => b.2 ≤ a.2) := by
  induction s with
  | nil => simp [sort_values_desc]
  | cons x xs ih => exact pairwise_insertDesc ih

lemma seriesHead_sublist {α : Type} (n : ℤ) (s : List α) :
    (seriesHead n s).Sublist s := by
  unfold seriesHead
  split
  · exact List.take_sublist _ _
  · exact List.take_sublist _ _

lemma length_seriesHead_nonneg {α : Type} {n : ℤ} (hn : 0 ≤ n)
    (s : List α) : (seriesHead n s).length = min n.toNat s.length := by
  simp [seriesHead, if_pos hn]

lemma mem_dropLabel {α : Type} {a : String × α} {k : String} {s : Series α} :
    a ∈ dropLabel k s ↔ a ∈ s ∧ a.1 ≠ k := by
  simp [dropLabel, List.mem_filter]

lemma dropLabel_cons {α : Type} (k : String) (e : String × α)
    (es : Series α) :
    dropLabel k (e :: es) =
      if e.1 = k then dropLabel k es else e :: dropLabel k es := by
  simp only [dropLabel, List.filter_cons]
  by_cases h : e.1 = k <;> simp [h]

lemma dropLabel_of_not_mem {α : Type} {k : String} {s : Series α}
    (h : k ∉ s.map Prod.fst) : dropLabel k s = s := by
  induction s with
  | nil => rfl
  | cons e es ih =>
    rw [List.map_cons, List.mem_cons, not_or] at h
    rw [dropLabel_cons, if_neg (fun hh => h.1 hh.symm), ih h.2]

lemma length_dropLabel_of_mem {α : Type} {k : String} {s : Series α}
    (hnd : (s.map Prod.fst).Nodup) (hk : k ∈ s.map Prod.fst) :
    (dropLabel k s).length = s.length - 1 := by
  induction s with
  | nil => simp at hk
  | cons e es ih =>
    rw [List.map_cons, List.nodup_cons] at hnd
    rw [List.map_cons, List.mem_cons] at hk
    rw [dropLabel_cons]
    by_cases h : e.1 = k
    · rw [if_pos h]
      rw [dropLabel_of_not_mem (h ▸ hnd.1)]
      simp
    · rw [if_neg h]
      have hk' : k ∈ es.map Prod.fst := by
        rcases hk with h1 | h1
        · exact absurd h1.symm h
        · exact h1
      have h2 : 0 < (es.map Prod.fst).length :=
        List.length_pos.mpr (List.ne_nil_of_mem hk')
      rw [List.length_map] at h2
      have h3 := ih hnd.2 hk'
      simp only [List.length_cons, h3]
      omega

lemma selectFeatures_length {row : Series ℚ} :
    ∀ {fs : List String} {vs : List ℚ},
      selectFeatures row fs = some vs → vs.length = fs.length := by
  intro fs
  induction fs with
  | nil =>
    intro vs h
    simp only [selectFeatures, Option.some_inj] at h
    subst h
    rfl
  | cons f fs ih =>
    intro vs h
    simp only [selectFeatures] at h
    cases hl : lookupKey f row with
    | none => rw [hl] at h; exact absurd h (by simp)
    | some v =>
      cases hs : selectFeatures row fs with
      | none => rw [hl, hs] at h; exact absurd h (by simp)
      | some ws =>
        rw [hl, hs] at h
        simp only [Option.some_inj] at h
        subst h
        simp [ih hs]

lemma closeLoop_spec {α : Type} {xs ys : List α}
    (h : closeLoop xs = some ys) :
    ys.length = xs.length + 1 ∧ ys.head? = ys.getLast? := by
  cases xs with
  | nil => exact absurd h (by simp [closeLoop])
  | cons x t =>
    simp only [closeLoop, Option.some_inj] at h
    subst h
    refine ⟨by simp, ?_⟩
    rw [List.getLast?_concat]
    simp

/-- C7: `gpis_quality` maps a percentile to Elite iff it is ≥ 85, to
Above-average iff it is in [60, 85), to League-average iff it is in
[40, 60), and to Below-average iff it is < 40; each tier boundary is
inclusive on its lower bound, so 85 is Elite and 84.999 is Above-average. -/
theorem gpis_quality_tier_boundaries (x : ℚ) :
    (((gpis_quality x).1 = "Elite impact") ↔ 85 ≤ x) ∧
    (((gpis_quality x).1 = "Above average") ↔ 60 ≤ x ∧ x < 85) ∧
    (((gpis_quality x).1 = "League average") ↔ 40 ≤ x ∧ x < 60) ∧
    (((gpis_quality x).1 = "Below average") ↔ x < 40) ∧
    (gpis_quality 85).1 = "Elite impact" ∧
    (gpis_quality (84999 / 1000)).1 = "Above average" := by
  refine ⟨?_, ?_, ?_, ?_, by norm_num [gpis_quality], by norm_num [gpis_quality]⟩ <;>
    · unfold gpis_quality
      split_ifs with h1 h2 h3 <;> simp <;>
        first
          | linarith
          | (intro h; linarith)
          | (refine ⟨by linarith, by linarith⟩)

/-- C8: whenever `radar_chart`'s vector construction succeeds on a list of
`k` feature names (both players present, all features present, `k ≥ 1`)
and `k` labels, the two value sequences and the label sequence it builds
each have length `k + 1` and each ends with its own first element. -/
theorem radar_chart_closed_vectors (df : FeatureTable) (p1 p2 : String)
    (features labels : List String) (c1 c2 : List ℚ) (cl : List String)
    (hlen : labels.length = features.length)
    (h : radar_chart df p1 p2 features labels = some (c1, c2, cl)) :
    c1.length = features.length + 1 ∧ c2.length = features.length + 1 ∧
    cl.length = features.length + 1 ∧
    c1.head? = c1.getLast? ∧ c2.head? = c2.getLast? ∧
    cl.head? = cl.getLast? := by
  unfold radar_chart at h
  cases hr1 : lookupKey p1 df with
  | none => rw [hr1] at h; exact absurd h (by simp)
  | some row1 =>
  rw [hr1] at h
  simp only [Option.bind_eq_bind, Option.some_bind] at h
  cases hv1 : selectFeatures row1 features with
  | none => rw [hv1] at h; exact absurd h (by simp)
  | some v1 =>
  rw [hv1, Option.some_bind] at h
  cases hr2 : lookupKey p2 df with
  | none => rw [hr2] at h; exact absurd h (by simp)
  | some row2 =>
  rw [hr2, Option.some_bind] at h
  cases hv2 : selectFeatures row2 features with
  | none => rw [hv2] at h; exact absurd h (by simp)
  | some v2 =>
  rw [hv2, Option.some_bind] at h
  cases hc1 : closeLoop v1 with
  | none => rw [hc1] at h; exact absurd h (by simp)
  | some d1 =>
  rw [hc1, Option.some_bind] at h
  cases hc2 : closeLoop v2 with
  | none => rw [hc2] at h; exact absurd h (by simp)
  | some d2 =>
  rw [hc2, Option.some_bind] at h
  cases hcl : closeLoop labels with
  | none => rw [hcl] at h; exact absurd h (by simp)
  | some dl =>
  rw [hcl, Option.some_bind] at h
  simp only [Option.some_inj, Prod.mk.injEq] at h
  obtain ⟨h1, h2, h3⟩ := h
  subst h1; subst h2; subst h3
  obtain ⟨hL1, hE1⟩ := closeLoop_spec hc1
  obtain ⟨hL2, hE2⟩ := closeLoop_spec hc2
  obtain ⟨hLl, hEl⟩ := closeLoop_spec hcl
  refine ⟨?_, ?_, ?_, hE1, hE2, hEl⟩
  · rw [hL1, selectFeatures_length hv1]
  · rw [hL2, selectFeatures_length hv2]
  · rw [hLl, hlen]

/-- C8 witness: the theorem applied to a concrete 2-player, 1-feature
table. -/
theorem radar_chart_closed_vectors_witness :
    ([(1 : ℚ), 1].length = ["f"].length + 1) ∧
    ([(2 : ℚ), 2].length = ["f"].length + 1) ∧
    (["F", "F"].length = ["f"].length + 1) ∧
    ([(1 : ℚ), 1].head? = [(1 : ℚ), 1].getLast?) ∧
    ([(2 : ℚ), 2].head? = [(2 : ℚ), 2].getLast?) ∧
    (["F", "F"].head? = ["F", "F"].getLast?) :=
  radar_chart_closed_vectors
    [("A", [("f", 1)]), ("B", [("f", 2)])] "A" "B" ["f"] ["F"]
    [1, 1] [2, 2] ["F", "F"] rfl rfl

/-! ### Similarity retrieval -/

/-- Concrete 3-player similarity matrix used to instantiate the general
theorems (diagonal never read by the retrieval code). -/
def exSim : SimMatrix :=
  [("A", [("A", 1), ("B", 9), ("C", 2)]),
   ("B", [("A", 9), ("B", 1), ("C", 4)]),
   ("C", [("A", 2), ("B", 4), ("C", 1)])]

/-- Concrete 3-player table `(id, GPIS, minutes_played)` matching the
spec's scenario scores {A: 10, B: 20, C: 30}. -/
def exDf : PlayerTable :=
  [("A", 10, 900), ("B", 20, 800), ("C", 30, 700)]

lemma find_similar_players_eq {m : SimMatrix} {df : PlayerTable}
    {p : String} {n : ℤ} {col : Series ℚ} {rows : List SimRow}
    (hcol : lookupKey p m = some col)
    (h : find_similar_players m df p n = some rows) :
    rows = (seriesHead n (sort_values_desc (dropLabel p col))).map
      (fun e => (e.1, e.2, lookupGpisMinutes e.1 df)) := by
  unfold find_similar_players at h
  rw [hcol] at h
  simp only [Option.map_some', Option.some_inj] at h
  exact h.symm

/-- C4: a player never appears among its own retrieved neighbors: every
row of `find_similar_players(p, n)` has an id different from `p`, and
`best_match_for(p)`, when it returns an id, returns one different
from `p`. -/
theorem retrieval_self_exclusion :
    (∀ (m : SimMatrix) (df : PlayerTable) (p : String) (n : ℤ)
        (rows : List SimRow) (r : SimRow),
        find_similar_players m df p n = some rows → r ∈ rows → r.1 ≠ p) ∧
    (∀ (m : SimMatrix) (p q : String),
        best_match_for m p = some q → q ≠ p) := by
  constructor
  · intro m df p n rows r h hr
    cases hcol : lookupKey p m with
    | none =>
      unfold find_similar_players at h
      rw [hcol] at h
      exact absurd h (by simp)
    | some col =>
      rw [find_similar_players_eq hcol h] at hr
      obtain ⟨e, he, rfl⟩ := List.mem_map.mp hr
      have he2 : e ∈ sort_values_desc (dropLabel p col) :=
        (seriesHead_sublist n _).mem he
      have he3 : e ∈ dropLabel p col := mem_sort_values_desc.mp he2
      exact (mem_dropLabel.mp he3).2
  · intro m p q h
    unfold best_match_for at h
    cases hcol : lookupKey p m with
    | none => rw [hcol] at h; exact absurd h (by simp)
    | some col =>
      rw [hcol, Option.some_bind] at h
      cases hh : (sort_values_desc (dropLabel p col)).head? with
      | none => rw [hh] at h; exact absurd h (by simp)
      | some e =>
        rw [hh] at h
        simp only [Option.map_some', Option.some_inj] at h
        subst h
        have he : e ∈ sort_values_desc (dropLabel p col) :=
          List.mem_of_mem_head? (by rw [hh]; rfl)
        exact (mem_dropLabel.mp (mem_sort_values_desc.mp he)).2

/-- C4 witness: the theorem applied to the concrete 3-player data. -/
theorem retrieval_self_exclusion_witness :
    (("B", (9 : ℚ), some ((20 : ℚ), (800 : ℚ))) : SimRow).1 ≠ "A" ∧
    ("B" : String) ≠ "A" :=
  ⟨retrieval_self_exclusion.1 exSim exDf "A" 10
      [("B", 9, some (20, 800)), ("C", 2, some (30, 700))] _
      (by decide) (by decide),
    retrieval_self_exclusion.2 exSim "A" "B" (by decide)⟩

/-- C5: the similarity values in any successful result of
`find_similar_players` are in non-increasing order. -/
theorem topNeighbors_sorted_desc (m : SimMatrix) (df : PlayerTable)
    (p : String) (n : ℤ) (rows : List SimRow)
    (h : find_similar_players m df p n = some rows) :
    rows.Pairwise (fun a b => b.2.1 ≤ a.2.1) := by
  cases hcol : lookupKey p m with
  | none =>
    unfold find_similar_players at h
    rw [hcol] at h
    exact absurd h (by simp)
  | some col =>
    rw [find_similar_players_eq hcol h]
    rw [List.pairwise_map]
    exact List.Pairwise.sublist (seriesHead_sublist n _)
      (pairwise_sort_values_desc (dropLabel p col))

/-- C5 witness: the theorem applied to the concrete 3-player data. -/
theorem topNeighbors_sorted_desc_witness :
    ([("B", (9 : ℚ), some ((20 : ℚ), (800 : ℚ))),
      ("C", 2, some (30, 700))] : List SimRow).Pairwise
      (fun a b => b.2.1 ≤ a.2.1) :=
  topNeighbors_sorted_desc exSim exDf "A" 10 _ (by decide)

/-- C3 counterexample: the claim quantifies over every `n`, but for a
negative `n` pandas `head` keeps all but the last `|n|` rows instead of
producing `min(n, playerCount - 1)` rows: on the 3-player dataset with
`n = -1` the call returns 1 entry while `min(-1, 3 - 1) = -1`. -/
theorem topNeighbors_length_counterexample :
    find_similar_players exSim exDf "A" (-1) =
      some [("B", 9, some (20, 800))] ∧
    (([("B", (9 : ℚ), some ((20 : ℚ), (800 : ℚ)))] : List SimRow).length : ℤ)
      ≠ min (-1) ((3 : ℤ) - 1) := by
  constructor
  · decide
  · decide

/-- C3 (amended to `n ≥ 0`): for every player `p` present in the matrix
(whose column has one row per player, with unique ids) and every
`n ≥ 0`, `find_similar_players(p, n)` returns exactly
`min(n, playerCount - 1)` entries. -/
theorem topNeighbors_length (m : SimMatrix) (df : PlayerTable) (p : String)
    (n : ℤ) (col : Series ℚ) (rows : List SimRow)
    (hcol : lookupKey p m = some col)
    (hnd : (col.map Prod.fst).Nodup) (hp : p ∈ col.map Prod.fst)
    (hn : 0 ≤ n)
    (h : find_similar_players m df p n = some rows) :
    rows.length = min n.toNat (col.length - 1) := by
  rw [find_similar_players_eq hcol h]
  rw [List.length_map, length_seriesHead_nonneg hn,
    length_sort_values_desc, length_dropLabel_of_mem hnd hp]

/-- C3 witness: `topNeighbors(A, 10)` on the 3-player dataset returns
exactly `min(10, 3 - 1) = 2` entries. -/
theorem topNeighbors_length_witness :
    ([("B", (9 : ℚ), some ((20 : ℚ), (800 : ℚ))),
      ("C", 2, some (30, 700))] : List SimRow).length =
      min (Int.toNat 10) ([("A", (1 : ℚ)), ("B", 9), ("C", 2)].length - 1) :=
  topNeighbors_length exSim exDf "A" 10 [("A", 1), ("B", 9), ("C", 2)] _
    (by decide) (by decide) (by decide) (by decide) (by decide)

/-- C2 counterexample: the code has no `InvalidTopNError` and does not
reject a non-positive `top_n`: on the 3-player dataset the call with
`top_n = 0` returns normally with an empty result, and with
`top_n = -1` it returns one entry. -/
theorem find_similar_players_nonpositive_counterexample :
    find_similar_players exSim exDf "A" 0 = some [] ∧
    find_similar_players exSim exDf "A" (-1) =
      some [("B", 9, some (20, 800))] := by
  constructor
  · decide
  · decide

/-- C2 (amended): for a player present in the matrix and `n ≤ 0`,
`find_similar_players` does not fail; it applies pandas `head`
semantics to the sorted candidate list: an empty result for `n = 0`
and all but the last `|n|` candidates for `n < 0`. -/
theorem find_similar_players_nonpositive (m : SimMatrix)
    (df : PlayerTable) (p : String) (col : Series ℚ) (n : ℤ)
    (hcol : lookupKey p m = some col) (hn : n ≤ 0) :
    ∃ rows, find_similar_players m df p n = some rows ∧
      rows.length =
        if n = 0 then 0 else (dropLabel p col).length - (-n).toNat := by
  refine ⟨(seriesHead n (sort_values_desc (dropLabel p col))).map
    (fun e => (e.1, e.2, lookupGpisMinutes e.1 df)), ?_, ?_⟩
  · unfold find_similar_players
    rw [hcol]
    rfl
  · rw [List.length_map]
    by_cases h0 : n = 0
    · subst h0
      simp [seriesHead]
    · have hneg : ¬ 0 ≤ n := by omega
      rw [if_neg h0]
      unfold seriesHead
      rw [if_neg hneg, List.length_take, length_sort_values_desc]
      have ht : 1 ≤ (-n).toNat := by omega
      omega

/-- C2 witness: the amended theorem applied to the concrete 3-player
data with `n = -1`. -/
theorem find_similar_players_nonpositive_witness :
    ∃ rows, find_similar_players exSim exDf "A" (-1) = some rows ∧
      rows.length =
        if (-1 : ℤ) = 0 then 0
        else (dropLabel "A" [("A", (1 : ℚ)), ("B", 9), ("C", 2)]).length -
          (-(-1 : ℤ)).toNat :=
  find_similar_players_nonpositive exSim exDf "A"
    [("A", 1), ("B", 9), ("C", 2)] (-1) (by decide) (by decide)

/-- C6: for a player `p` present in the matrix (unique ids, at least two
players), `best_match_for(p)` returns precisely the neighbor id of the
single row of `find_similar_players(p, 1)`. -/
theorem best_match_eq_first_topNeighbor (m : SimMatrix) (df : PlayerTable)
    (p : String) (col : Series ℚ)
    (hcol : lookupKey p m = some col)
    (hnd : (col.map Prod.fst).Nodup) (hp : p ∈ col.map Prod.fst)
    (h2 : 2 ≤ col.length) :
    ∃ q rows, best_match_for m p = some q ∧
      find_similar_players m df p 1 = some rows ∧
      rows.map (fun r => r.1) = [q] := by
  have hlen : (sort_values_desc (dropLabel p col)).length = col.length - 1 := by
    rw [length_sort_values_desc, length_dropLabel_of_mem hnd hp]
  cases hsort : sort_values_desc (dropLabel p col) with
  | nil => rw [hsort] at hlen; simp at hlen; omega
  | cons e rest =>
    refine ⟨e.1, [(e.1, e.2, lookupGpisMinutes e.1 df)], ?_, ?_, by simp⟩
    · unfold best_match_for
      rw [hcol, Option.some_bind, hsort]
      rfl
    · unfold find_similar_players
      rw [hcol]
      simp only [Option.map_some', Option.some_inj]
      have hhead : seriesHead 1 (sort_values_desc (dropLabel p col)) = [e] := by
        rw [hsort]
        rfl
      rw [hhead]
      rfl

/-- C6 witness: on the concrete 3-player data, `best_match_for("A")`
is `"B"` and `find_similar_players("A", 1)` is the single row for
`"B"`. -/
theorem best_match_eq_first_topNeighbor_witness :
    ∃ q rows, best_match_for exSim "A" = some q ∧
      find_similar_players exSim exDf "A" 1 = some rows ∧
      rows.map (fun r => r.1) = [q] :=
  best_match_eq_first_topNeighbor exSim exDf "A"
    [("A", 1), ("B", 9), ("C", 2)] (by decide) (by decide) (by decide)
    (by decide)

/-- C10: with exactly one player loaded, `best_match_for` on that player
drops the only row of its similarity column and then reads `.index[0]`
of an empty Series — an `IndexError` (modelled by `none`) rather than a
value; with at least two players (unique ids) it always returns a
value. The at-least-two-players precondition is implicit in the code
and unstated in the spec. -/
theorem best_match_single_player :
    (∀ (p : String) (v : ℚ), best_match_for [(p, [(p, v)])] p = none) ∧
    (∀ (m : SimMatrix) (p : String) (col : Series ℚ),
        lookupKey p m = some col → (col.map Prod.fst).Nodup →
        p ∈ col.map Prod.fst → 2 ≤ col.length →
        (best_match_for m p).isSome) := by
  constructor
  · intro p v
    unfold best_match_for
    have h1 : lookupKey p [(p, [(p, v)])] = some [(p, v)] := by
      simp [lookupKey]
    rw [h1, Option.some_bind]
    have h2 : dropLabel p [(p, v)] = [] := by
      simp [dropLabel]
    rw [h2]
    rfl
  · intro m p col hcol hnd hp h2
    have hlen : (sort_values_desc (dropLabel p col)).length = col.length - 1 := by
      rw [length_sort_values_desc, length_dropLabel_of_mem hnd hp]
    cases hsort : sort_values_desc (dropLabel p col) with
    | nil => rw [hsort] at hlen; simp at hlen; omega
    | cons e rest =>
      unfold best_match_for
      rw [hcol, Option.some_bind, hsort]
      rfl

/-- C10 witness: the theorem applied to a concrete 1-player matrix and
to the concrete 3-player matrix. -/
theorem best_match_single_player_witness :
    best_match_for [("A", [("A", 1)])] "A" = none ∧
    (best_match_for exSim "A").isSome :=
  ⟨best_match_single_player.1 "A" 1,
    best_match_single_player.2 exSim "A" [("A", 1), ("B", 9), ("C", 2)]
      (by decide) (by decide) (by decide) (by decide)⟩

/-! ### Percentile rank -/

lemma lookupKey_mem_values {α : Type} {k : String} {v : α} :
    ∀ {s : Series α}, lookupKey k s = some v → v ∈ s.map Prod.snd := by
  intro s
  induction s with
  | nil => intro h; exact absurd h (by simp [lookupKey])
  | cons e es ih =>
    intro h
    rw [lookupKey] at h
    by_cases he : e.1 = k
    · rw [if_pos he, Option.some_inj] at h
      subst h
      simp
    · rw [if_neg he] at h
      simp only [List.map_cons, List.mem_cons]
      exact Or.inr (ih h)

lemma sum_range_map_add (c : ℚ) :
    ∀ m : ℕ, ((List.range m).map (fun i : ℕ => (c + (i : ℚ)))).sum
      = (m : ℚ) * c + (m : ℚ) * ((m : ℚ) - 1) / 2 := by
  intro m
  induction m with
  | zero => simp
  | succ m ih =>
    rw [List.range_succ, List.map_append, List.sum_append, ih]
    push_cast
    simp only [List.map_cons, List.map_nil, List.sum_cons, List.sum_nil]
    ring

lemma rank_avg_eq_spec_avg_rank {scores : List ℚ} {v : ℚ}
    (hm : 0 < scores.countP (fun o => decide (o = v))) :
    rank_avg scores v = spec_avg_rank scores v := by
  unfold rank_avg spec_avg_rank
  have hsum :
      ((List.range (scores.countP (fun o => decide (o = v)))).map
        (fun i : ℕ =>
          ((scores.countP (fun o => decide (o < v)) : ℚ) + 1 + (i : ℚ)))).sum
      = ((scores.countP (fun o => decide (o = v))) : ℚ) *
          ((scores.countP (fun o => decide (o < v)) : ℚ) + 1) +
        ((scores.countP (fun o => decide (o = v))) : ℚ) *
          (((scores.countP (fun o => decide (o = v))) : ℚ) - 1) / 2 := by
    exact sum_range_map_add
      ((scores.countP (fun o => decide (o < v)) : ℚ) + 1)
      (scores.countP (fun o => decide (o = v)))
  rw [hsum]
  have hM : ((scores.countP (fun o => decide (o = v))) : ℚ) ≠ 0 := by
    exact_mod_cast Nat.pos_iff_ne_zero.mp hm
  field_simp
  ring

/-- C1: `percentile` computes exactly the spec's average-rank convention —
the mean of the ranks the tied block would occupy — divided by the player
count and scaled to 100; on the 3-player dataset {A: 10, B: 20, C: 30},
`percentile(B)` is `(2/3)·100`. -/
theorem percentile_is_spec_average_rank (df : PlayerTable) (p : String)
    (v : ℚ) (h : lookupKey p (gpisColumn df) = some v) :
    percentile df p =
      some (spec_avg_rank (gpisScores df) v / (df.length : ℚ) * 100) ∧
    percentile exDf "B" = some (2 / 3 * 100) := by
  constructor
  · have hmem : v ∈ gpisScores df := by
      have h1 := lookupKey_mem_values h
      have h2 : (gpisColumn df).map Prod.snd = gpisScores df := by
        simp [gpisColumn, gpisScores, List.map_map]
      rwa [h2] at h1
    have hm : 0 < (gpisScores df).countP (fun o => decide (o = v)) :=
      List.countP_pos_iff.mpr ⟨v, hmem, by simp⟩
    unfold percentile
    rw [h]
    simp only [Option.map_some', Option.some_inj]
    rw [rank_avg_eq_spec_avg_rank hm]
  · simp [percentile, gpisColumn, gpisScores, lookupKey, rank_avg,
      List.countP_cons, exDf]
    norm_num

/-- C1 witness: the theorem applied to the concrete 3-player dataset. -/
theorem percentile_is_spec_average_rank_witness :
    percentile exDf "B" =
      some (spec_avg_rank (gpisScores exDf) 20 / (exDf.length : ℚ) * 100) ∧
    percentile exDf "B" = some (2 / 3 * 100) :=
  percentile_is_spec_average_rank exDf "B" 20 (by decide)

lemma countP_lt_add_countP_eq_le (v v' : ℚ) (h : v < v') :
    ∀ O : List ℚ,
      O.countP (fun o => decide (o < v)) + O.countP (fun o => decide (o = v))
        ≤ O.countP (fun o => decide (o < v')) := by
  intro O
  induction O with
  | nil => simp
  | cons o os ih =>
    simp only [List.countP_cons]
    have h1 : o < v → o < v' := fun hh => hh.trans h
    have h2 : o = v → o < v' := fun hh => hh ▸ h
    have h3 : o < v → ¬ o = v := fun hh => ne_of_lt hh
    simp only [decide_eq_true_eq]
    by_cases c1 : o < v
    · rw [if_pos c1, if_neg (h3 c1), if_pos (h1 c1)]
      omega
    · rw [if_neg c1]
      by_cases c2 : o = v
      · rw [if_pos c2, if_pos (h2 c2)]
        omega
      · rw [if_neg c2]
        by_cases c3 : o < v'
        · rw [if_pos c3]
          omega
        · rw [if_neg c3]
          omega

lemma rank_avg_middle (A B : List ℚ) (v : ℚ) :
    rank_avg (A ++ v :: B) v =
      ((A ++ B).countP (fun o => decide (o < v)) : ℚ) +
        (((A ++ B).countP (fun o => decide (o = v)) : ℚ) + 2) / 2 := by
  unfold rank_avg
  simp only [List.countP_append, List.countP_cons, decide_eq_true_eq]
  norm_num
  ring

lemma rank_avg_le_of_le (A B : List ℚ) {v v' : ℚ} (hv : v ≤ v') :
    rank_avg (A ++ v :: B) v ≤ rank_avg (A ++ v' :: B) v' := by
  rcases eq_or_lt_of_le hv with rfl | hlt
  · exact le_refl _
  · rw [rank_avg_middle, rank_avg_middle]
    have hK := countP_lt_add_countP_eq_le v v' hlt (A ++ B)
    have hK' : ((A ++ B).countP (fun o => decide (o < v)) : ℚ) +
        ((A ++ B).countP (fun o => decide (o = v)) : ℚ) ≤
        ((A ++ B).countP (fun o => decide (o < v')) : ℚ) := by
      exact_mod_cast hK
    have hM : (0 : ℚ) ≤ ((A ++ B).countP (fun o => decide (o = v)) : ℚ) :=
      Nat.cast_nonneg _
    have hM' : (0 : ℚ) ≤ ((A ++ B).countP (fun o => decide (o = v')) : ℚ) :=
      Nat.cast_nonneg _
    linarith

lemma lookupKey_gpisColumn (l1 l2 : PlayerTable) (p : String) (v mv : ℚ)
    (hp : p ∉ l1.map Prod.fst) :
    lookupKey p (gpisColumn (l1 ++ (p, v, mv) :: l2)) = some v := by
  induction l1 with
  | nil => simp [gpisColumn, lookupKey]
  | cons r rs ih =>
    rw [List.map_cons, List.mem_cons, not_or] at hp
    rw [List.cons_append]
    show lookupKey p ((r.1, r.2.1) :: gpisColumn (rs ++ (p, v, mv) :: l2))
      = some v
    rw [lookupKey, if_neg (fun hh => hp.1 hh.symm)]
    exact ih hp.2

/-- C9: `percentile` is monotonically non-decreasing in the player's own
score: replacing player `p`'s score `v` by a larger score `v'` while every
other row is unchanged cannot decrease `percentile(p)`. -/
theorem percentile_monotone (l1 l2 : PlayerTable) (p : String)
    (v v' mv : ℚ) (q q' : ℚ)
    (hp : p ∉ l1.map Prod.fst) (hv : v ≤ v')
    (h1 : percentile (l1 ++ (p, v, mv) :: l2) p = some q)
    (h2 : percentile (l1 ++ (p, v', mv) :: l2) p = some q') :
    q ≤ q' := by
  unfold percentile at h1 h2
  rw [lookupKey_gpisColumn l1 l2 p v mv hp] at h1
  rw [lookupKey_gpisColumn l1 l2 p v' mv hp] at h2
  simp only [Option.map_some', Option.some_inj] at h1 h2
  subst h1
  subst h2
  have hs : ∀ w : ℚ, gpisScores (l1 ++ (p, w, mv) :: l2) =
      (l1.map (fun r => r.2.1)) ++ w :: (l2.map (fun r => r.2.1)) := by
    intro w
    simp [gpisScores]
  rw [hs v, hs v']
  have hrank := rank_avg_le_of_le (l1.map (fun r => r.2.1))
    (l2.map (fun r => r.2.1)) hv
  have hlenN : 0 < (l1 ++ (p, v, mv) :: l2).length := by
    rw [List.length_append, List.length_cons]
    omega
  have hlen : (0 : ℚ) < ((l1 ++ (p, v, mv) :: l2).length : ℚ) := by
    exact_mod_cast hlenN
  have hlen2 : ((l1 ++ (p, v', mv) :: l2).length : ℚ) =
      ((l1 ++ (p, v, mv) :: l2).length : ℚ) := by
    simp
  rw [hlen2]
  have hdiv := (div_le_div_iff_of_pos_right hlen).mpr hrank
  exact mul_le_mul_of_nonneg_right hdiv (by norm_num)

/-- C9 witness: raising B's score from 20 to 35 on the 3-player dataset
raises `percentile(B)` from `200/3` to `100`. -/
theorem percentile_monotone_witness : (200 / 3 : ℚ) ≤ 100 :=
  percentile_monotone [("A", 10, 900)] [("C", 30, 700)] "B" 20 35 800
    (200 / 3) 100 (by decide) (by norm_num)
    (by simp [percentile, gpisColumn, gpisScores, lookupKey, rank_avg,
          List.countP_cons]
        norm_num)
    (by simp [percentile, gpisColumn, gpisScores, lookupKey, rank_avg,
          List.countP_cons]
        norm_num)
